import Mathlib

/-!
Verification of the `icd` icon-downloading CLI.

This file shallowly embeds the string-processing core of the program:
the filename sanitizer and error logger (`src/utils.ts`), and the
`IconInput` class (`src/IconInput.ts`): URL building, SVG fetching,
the SVG-to-TSX transformation and the file writer.

JavaScript strings are modelled as `String`/`List Char`.  JavaScript's
`String.prototype.replace` with a string pattern replaces only the first
occurrence (`replaceFirst` below); with a `g`-flagged regex it replaces
every occurrence scanning left to right without rescanning replacements
(`gsub` below, driven by a matcher function per regex used in the source).
JavaScript truthiness of an optional string field (`undefined` and `""`
are falsy) is modelled by `jsTruthyStr`.  Only ASCII case mapping is
modelled for `toLowerCase`/`toUpperCase`; `$`-escape interpretation in
replacement strings is not modelled (no replacement used by the program
contains `$`).
-/

/-- The set accepted by JavaScript's regex `\s` (whitespace class), by
code point: tab, LF, VT, FF, CR, space, NBSP, and the Unicode space
separators plus BOM. -/
def isJsWhitespace (c : Char) : Bool :=
  c.toNat = 9 || c.toNat = 10 || c.toNat = 11 || c.toNat = 12 || c.toNat = 13 ||
  c.toNat = 32 || c.toNat = 160 || c.toNat = 5760 ||
  (8192 ≤ c.toNat && c.toNat ≤ 8202) || c.toNat = 8232 || c.toNat = 8233 ||
  c.toNat = 8239 || c.toNat = 8287 || c.toNat = 12288 || c.toNat = 65279

/-- ASCII lowercasing of one character, as done by `toLowerCase`. -/
def jsLowerChar (c : Char) : Char :=
  if 65 ≤ c.toNat ∧ c.toNat ≤ 90 then Char.ofNat (c.toNat + 32) else c

/-- ASCII uppercasing of one character, as done by `toUpperCase`. -/
def jsUpperChar (c : Char) : Char :=
  if 97 ≤ c.toNat ∧ c.toNat ≤ 122 then Char.ofNat (c.toNat - 32) else c

/-- Characters allowed by the sanitizer's final character class
`[a-z0-9-]`, by code point. -/
def isSanitizedChar (c : Char) : Bool :=
  (97 ≤ c.toNat && c.toNat ≤ 122) || (48 ≤ c.toNat && c.toNat ≤ 57) || c.toNat = 45

/-- The effect of `replace(/\s+/g, '-')`: each maximal run of whitespace
becomes a single hyphen. -/
def collapseWhitespace : List Char → List Char
  | [] => []
  | [c] => if isJsWhitespace c then ['-'] else [c]
  | c₁ :: c₂ :: cs =>
    if isJsWhitespace c₁ && isJsWhitespace c₂ then collapseWhitespace (c₂ :: cs)
    else (if isJsWhitespace c₁ then '-' else c₁) :: collapseWhitespace (c₂ :: cs)

/-- `santizeFilename` from `src/utils.ts` (the typo is the source's):
lowercase, collapse whitespace runs to `-`, then replace anything
outside `[a-z0-9-]` by `-`. -/
def santizeFilename (s : String) : String :=
  ⟨(collapseWhitespace (s.data.map jsLowerChar)).map
    (fun c => if isSanitizedChar c then c else '-')⟩

/-- JavaScript `String.prototype.includes` on character lists. -/
def hasSubstr (pat : List Char) : List Char → Bool
  | [] => pat.isPrefixOf ([] : List Char)
  | c :: cs => pat.isPrefixOf (c :: cs) || hasSubstr pat cs

/-- JavaScript `String.prototype.replace` with a *string* pattern:
replace the first occurrence only (verbatim replacement). -/
def replaceFirst (pat repl : List Char) : List Char → List Char
  | [] => if pat.isPrefixOf ([] : List Char) then repl else []
  | c :: cs =>
    if pat.isPrefixOf (c :: cs) then repl ++ (c :: cs).drop pat.length
    else c :: replaceFirst pat repl cs

/-- One regex match attempt at the head of the input: on success,
`(consumed length, replacement text)`; all matchers below consume at
least one character on success. -/
abbrev Matcher := List Char → Option (Nat × List Char)

/-- Scanner for `gsub`: the `skip` counter carries the remaining length
of the match currently being consumed, keeping the recursion
structural (and hence evaluable). -/
def gsubAux (m : Matcher) : Nat → List Char → List Char
  | _, [] => []
  | Nat.succ k, _ :: cs => gsubAux m k cs
  | 0, c :: cs =>
    match m (c :: cs) with
    | some (k + 1, r) => r ++ gsubAux m k cs
    | _ => c :: gsubAux m 0 cs

/-- JavaScript `replace` with a `g`-flagged regex: scan left to right,
rewrite each non-overlapping match, never rescan replacements. -/
def gsub (m : Matcher) (l : List Char) : List Char := gsubAux m 0 l

/-- JavaScript `replace` with a non-global regex: rewrite only the first
match. -/
def sub1 (m : Matcher) : List Char → List Char
  | [] => []
  | c :: cs =>
    match m (c :: cs) with
    | some (k, r) => r ++ (c :: cs).drop k
    | none => c :: sub1 m cs

/-- Matcher for a literal string pattern with a fixed replacement. -/
def litMatcher (pat repl : List Char) : Matcher := fun l =>
  if pat.isPrefixOf l then some (pat.length, repl) else none

/-- Matcher for `attr="[^"]*"` style regexes: `pat` is the literal part
up to and including the opening quote (e.g. `width="`), then a run of
non-quote characters, then the closing quote. -/
def quotedAttrMatcher (pat repl : List Char) : Matcher := fun l =>
  if pat.isPrefixOf l then
    let run := (l.drop pat.length).takeWhile (fun c => c != '\x22')
    match (l.drop pat.length).drop run.length with
    | '\x22' :: _ => some (pat.length + run.length + 1, repl)
    | _ => none
  else none

/-- Matcher for the regex `<\?xml[^?]*\?>` (XML declaration), removed. -/
def xmlDeclMatcher : Matcher := fun l =>
  if "<?xml".data.isPrefixOf l then
    let run := (l.drop 5).takeWhile (fun c => c != '?')
    if "?>".data.isPrefixOf ((l.drop 5).drop run.length) then
      some (5 + run.length + 2, [])
    else none
  else none

/-- Matcher for the regex `<svg([^>]*)>` with the replacement
`<svg$1>\n        <title>{title}</title>`. -/
def svgTagTitleMatcher : Matcher := fun l =>
  if "<svg".data.isPrefixOf l then
    let attrs := (l.drop 4).takeWhile (fun c => c != '>')
    match (l.drop 4).drop attrs.length with
    | '>' :: _ =>
      some (4 + attrs.length + 1,
        "<svg".data ++ attrs ++ (">\n        <title>\x7btitle\x7d</title>").data)
    | _ => none
  else none

/-- Step 1 of `processSvgForReact`: `replace(/<\?xml[^?]*\?>/g, '')`. -/
def stripXmlDecl (l : List Char) : List Char := gsub xmlDeclMatcher l

/-- The fixed kebab-to-camel attribute table, in the source's
insertion order. -/
def attributeRenames : List (String × String) :=
  [("stroke-width", "strokeWidth"), ("stroke-linecap", "strokeLinecap"),
   ("stroke-linejoin", "strokeLinejoin"), ("fill-rule", "fillRule"),
   ("clip-rule", "clipRule"), ("fill-opacity", "fillOpacity"),
   ("stroke-opacity", "strokeOpacity")]

/-- Step 2: each table entry drives `replace(new RegExp(kebab, 'g'), camel)`,
a literal global substitution applied over the whole document. -/
def renameAttributes (l : List Char) : List Char :=
  attributeRenames.foldl (fun acc kv => gsub (litMatcher kv.1.data kv.2.data) acc) l

/-- Step 3a: if the text `includes('width=')`, run
`replace(/width="[^"]*"/g, 'width={width}')`, else inject the prop on
the first `<svg`. -/
def widthStage (l : List Char) : List Char :=
  if hasSubstr "width=".data l then
    gsub (quotedAttrMatcher "width=\x22".data "width=\x7bwidth\x7d".data) l
  else
    sub1 (litMatcher "<svg".data "<svg width=\x7bwidth\x7d".data) l

/-- Step 3b: same for `height`. -/
def heightStage (l : List Char) : List Char :=
  if hasSubstr "height=".data l then
    gsub (quotedAttrMatcher "height=\x22".data "height=\x7bheight\x7d".data) l
  else
    sub1 (litMatcher "<svg".data "<svg height=\x7bheight\x7d".data) l

/-- Step 4: insert the title element after the root opening tag. -/
def titleStage (l : List Char) : List Char := sub1 svgTagTitleMatcher l

/-- Step 5: `replace(/class="[^"]*"/g, '')`. -/
def classStage (l : List Char) : List Char :=
  gsub (quotedAttrMatcher "class=\x22".data []) l

/-- Step 6: `replace(/<svg/, '<svg {...rest}')`. -/
def restStage (l : List Char) : List Char :=
  sub1 (litMatcher "<svg".data "<svg \x7b...rest\x7d".data) l

/-- The full rewriting pipeline of `processSvgForReact` on the raw SVG
text, before wrapping in the component boilerplate. -/
def processSvgBody (l : List Char) : List Char :=
  restStage (classStage (titleStage (heightStage (widthStage (renameAttributes (stripXmlDecl l))))))

/-- JavaScript `String.prototype.trim`, right half. -/
def jsTrimRight (l : List Char) : List Char :=
  ((l.reverse).dropWhile isJsWhitespace).reverse

/-- JavaScript `String.prototype.trim`. -/
def jsTrim (l : List Char) : List Char := jsTrimRight (l.dropWhile isJsWhitespace)

/-- The component template literal before the interpolated icon name.
The exported function name is the hardcoded `BootstrapHeart` of the
source, not the computed component name. -/
def tsxHeader : String :=
  "\nimport type \x7b SVGProps \x7d from \x27react\x27;\n\ninterface IconProps extends SVGProps<SVGSVGElement> \x7b\n    title?: string;\n\x7d\n\nexport default function BootstrapHeart(\x7b\n    title = \x27"

/-- The template literal between the icon name and the trimmed markup. -/
def tsxMiddle : String :=
  "\x27,\n    width,\n    height,\n    ...rest\n\x7d: IconProps): React.ReactNode \x7b\n    return (\n        "

/-- The template literal after the trimmed markup. -/
def tsxFooter : String := "\n    );\n\x7d\n        "

/-- The full component source template of `processSvgForReact`. -/
def tsxTemplate (name processedTrimmed : String) : String :=
  tsxHeader ++ name ++ tsxMiddle ++ processedTrimmed ++ tsxFooter

/-- A repository preset entry (`RepositoryConfig` in `src/types.ts`). -/
structure RepositoryConfig where
  name : String
  owner : String
  repo : String
  branch : Option String := none
  pathTemplate : String
  variantMap : Option (List (String × String)) := none
  demoUrl : Option String := none
  deriving DecidableEq

/-- An icon download descriptor (the `IconInput` class fields). -/
structure IconInput where
  output : String
  name : String
  filename : String
  variant : Option String := none
  size : Option Nat := none
  repository : RepositoryConfig
  overwrite : Bool := false
  tsxTransform : Bool := false
  svgText : Option String := none
  deriving DecidableEq

/-- JavaScript truthiness of an optional string field: `undefined` and
the empty string are falsy. -/
def jsTruthyStr : Option String → Option String
  | none => none
  | some s => if s = "" then none else some s

/-- `this.repository.branch || 'main'`. -/
def branchSegment (r : RepositoryConfig) : String :=
  match r.branch with
  | none => "main"
  | some b => if b = "" then "main" else b

/-- `this.size?.toString() || ''`. -/
def sizeString : Option Nat → String
  | none => ""
  | some n => toString n

/-- `this.variant || ''`. -/
def variantString : Option String → String
  | none => ""
  | some v => v

/-- The path template after the three first-occurrence substitutions of
`buildUrl`, in source order: `{variant}`, then `{size}`, then
`{iconName}`. -/
def IconInput.substitutedPath (icon : IconInput) : String :=
  ⟨replaceFirst "\x7biconName\x7d".data icon.name.data
    (replaceFirst "\x7bsize\x7d".data (sizeString icon.size).data
      (replaceFirst "\x7bvariant\x7d".data (variantString icon.variant).data
        icon.repository.pathTemplate.data))⟩

/-- `IconInput.buildUrl`. -/
def IconInput.buildUrl (icon : IconInput) : String :=
  "https://raw.githubusercontent.com/" ++ icon.repository.owner ++ "/" ++
    icon.repository.repo ++ "/" ++ branchSegment icon.repository ++ "/" ++
    icon.substitutedPath

/-- An HTTP response as observed by `grabSvgText`. -/
structure HttpResponse where
  ok : Bool
  status : Nat
  statusText : String
  bodyText : String
  deriving DecidableEq

/-- The observable outcome of one `grabSvgText` call: the (possibly
updated) descriptor, how many network fetches were performed, the
messages passed to the `logError` collaborator, and the thrown error
message if any. -/
structure GrabResult where
  icon : IconInput
  fetches : Nat
  logged : List String
  thrown : Option String
  deriving DecidableEq

/-- `IconInput.grabSvgText`, with the network modelled as a function
from URL to response. -/
def IconInput.grabSvgText (icon : IconInput) (net : String → HttpResponse) : GrabResult :=
  if (jsTruthyStr icon.svgText).isSome then
    { icon := icon, fetches := 0, logged := [], thrown := none }
  else
    let url := icon.buildUrl
    let response := net url
    if !response.ok then
      let msg := "Failed to download icon " ++ icon.name ++ " from " ++ url ++ ": " ++
        toString response.status ++ " " ++ response.statusText
      { icon := icon, fetches := 1, logged := [msg], thrown := some msg }
    else
      { icon := { icon with svgText := some response.bodyText }, fetches := 1,
        logged := [], thrown := none }

/-- `IconInput.processSvgForReact`.  The `componentName` parameter is
accepted but, as in the source, never used: the template hardcodes
`BootstrapHeart`. -/
def IconInput.processSvgForReact (icon : IconInput) (componentName : String) :
    Except String String :=
  match jsTruthyStr icon.svgText with
  | none => Except.error ("SVG text is not available for icon " ++ icon.name)
  | some svg =>
    let _ := componentName
    Except.ok (tsxTemplate icon.name (String.mk (jsTrim (processSvgBody svg.data))))

/-- `filename.split('-').map(part => part.charAt(0).toUpperCase() + part.slice(1)).join('')`. -/
def componentNameOfFilename (filename : String) : String :=
  ⟨((filename.data.splitOn '-').map
      (fun part => match part with
        | [] => []
        | c :: cs => jsUpperChar c :: cs)).flatten⟩

/-- `IconInput.transform`. -/
def IconInput.transform (icon : IconInput) : Except String IconInput :=
  match jsTruthyStr icon.svgText with
  | none => Except.error ("Icon data is not downloaded for " ++ icon.name)
  | some _ =>
    if icon.tsxTransform then
      match icon.processSvgForReact (componentNameOfFilename icon.filename) with
      | Except.error e => Except.error e
      | Except.ok out => Except.ok { icon with svgText := some out }
    else Except.ok icon

/-- The file path computed by `saveToFile`: `.tsx` when the transform
flag is set, `.svg` otherwise. -/
def IconInput.savePath (icon : IconInput) : String :=
  if icon.tsxTransform then icon.output ++ "/" ++ icon.filename ++ ".tsx"
  else icon.output ++ "/" ++ icon.filename ++ ".svg"

/-- `IconInput.saveToFile`, with the filesystem modelled as a map from
path to contents; the write is unconditional (`writeFile`). -/
def IconInput.saveToFile (icon : IconInput) (fs : String → Option String) :
    Except String (String → Option String) :=
  match jsTruthyStr icon.svgText with
  | none => Except.error ("Icon data is not downloaded for " ++ icon.name)
  | some svg => Except.ok (fun p => if p = icon.savePath then some svg else fs p)

/-! ### Generic lemmas about the string-operation embedding -/

theorem isPrefixOf_append_self (pat x : List Char) : pat.isPrefixOf (pat ++ x) = true := by
  induction pat with
  | nil => simp [List.isPrefixOf]
  | cons c cs ih => simp [List.isPrefixOf, ih]

theorem hasSubstr_of_isPrefixOf {pat l : List Char} (h : pat.isPrefixOf l = true) :
    hasSubstr pat l = true := by
  cases l with
  | nil => simpa [hasSubstr] using h
  | cons c cs => simp [hasSubstr, h]

theorem hasSubstr_append_left {pat b : List Char} (a : List Char)
    (h : hasSubstr pat b = true) : hasSubstr pat (a ++ b) = true := by
  induction a with
  | nil => simpa using h
  | cons c cs ih =>
    simp only [List.cons_append, hasSubstr, Bool.or_eq_true]
    exact Or.inr ih

theorem replaceFirst_no_match {pat repl l : List Char} (h : hasSubstr pat l = false) :
    replaceFirst pat repl l = l := by
  induction l with
  | nil =>
    simp only [hasSubstr] at h
    simp [replaceFirst, h]
  | cons c cs ih =>
    simp only [hasSubstr, Bool.or_eq_false_iff] at h
    simp [replaceFirst, h.1, ih h.2]

theorem replaceFirst_first_occurrence (pat repl x : List Char) (hpat : pat ≠ []) :
    ∀ a : List Char,
      (∀ i, i < a.length → pat.isPrefixOf ((a ++ (pat ++ x)).drop i) = false) →
      replaceFirst pat repl (a ++ (pat ++ x)) = a ++ (repl ++ x) := by
  intro a
  induction a with
  | nil =>
    intro _
    cases pat with
    | nil => exact absurd rfl hpat
    | cons p ps =>
      show replaceFirst (p :: ps) repl (p :: (ps ++ x)) = repl ++ x
      rw [replaceFirst, if_pos (show (p :: ps).isPrefixOf (p :: (ps ++ x)) = true from
        isPrefixOf_append_self (p :: ps) x)]
      rw [show List.drop (p :: ps).length (p :: (ps ++ x)) = x from List.drop_left (p :: ps) x]
  | cons c a' ih =>
    intro h
    have h0 : pat.isPrefixOf (c :: (a' ++ (pat ++ x))) = false := by
      have := h 0 (by simp)
      simpa only [List.cons_append, List.drop_zero] using this
    show replaceFirst pat repl (c :: (a' ++ (pat ++ x))) = c :: (a' ++ (repl ++ x))
    rw [replaceFirst, if_neg (by simp [h0])]
    rw [ih (fun i hi => by
      have := h (i + 1) (by simpa using Nat.succ_lt_succ hi)
      simpa only [List.cons_append, List.drop_succ_cons] using this)]

theorem sub1_eq_of_match {m : Matcher} {l : List Char} {k : Nat} {r : List Char}
    (hl : l ≠ []) (h : m l = some (k, r)) : sub1 m l = r ++ l.drop k := by
  cases l with
  | nil => exact absurd rfl hl
  | cons c cs => simp [sub1, h]

theorem gsubAux_skip (m : Matcher) : ∀ (l : List Char) (k : Nat),
    gsubAux m k l = gsubAux m 0 (l.drop k) := by
  intro l
  induction l with
  | nil =>
    intro k
    rw [List.drop_nil]
    cases k with
    | zero => rfl
    | succ k => rfl
  | cons c cs ih =>
    intro k
    cases k with
    | zero => rfl
    | succ k => rw [gsubAux, ih k, List.drop_succ_cons]

theorem gsub_cons_none {m : Matcher} {c : Char} {cs : List Char}
    (h : m (c :: cs) = none) : gsub m (c :: cs) = c :: gsub m cs := by
  rw [gsub, gsubAux, h]
  rfl

theorem gsub_eq_of_match {m : Matcher} {l : List Char} {k : Nat} {r : List Char}
    (hl : l ≠ []) (h : m l = some (k + 1, r)) :
    gsub m l = r ++ gsub m (l.drop (k + 1)) := by
  cases l with
  | nil => exact absurd rfl hl
  | cons c cs =>
    rw [gsub, gsubAux, h]
    rw [show (match some (k + 1, r) with
      | some (Nat.succ k, r) => r ++ gsubAux m k cs
      | _ => c :: gsubAux m 0 cs) = r ++ gsubAux m k cs from rfl]
    rw [gsubAux_skip m cs k, List.drop_succ_cons, gsub]

theorem quotedAttrMatcher_none_of_unmatched {pat repl l : List Char}
    (h : pat.isPrefixOf l = false) : quotedAttrMatcher pat repl l = none := by
  simp [quotedAttrMatcher, h]

theorem gsub_quotedAttr_id {pat repl : List Char} :
    ∀ l : List Char, hasSubstr pat l = false → gsub (quotedAttrMatcher pat repl) l = l := by
  intro l
  induction l with
  | nil => intro _; rfl
  | cons c cs ih =>
    intro h
    simp only [hasSubstr, Bool.or_eq_false_iff] at h
    rw [gsub_cons_none (quotedAttrMatcher_none_of_unmatched h.1)]
    rw [ih h.2]

theorem takeWhile_append_stop {p : Char → Bool} {l : List Char} (c : Char) (y : List Char)
    (hl : l.all p = true) (hc : p c = false) : (l ++ c :: y).takeWhile p = l := by
  induction l with
  | nil => simp [List.takeWhile_cons, hc]
  | cons d ds ih =>
    simp only [List.all_cons, Bool.and_eq_true] at hl
    simp [List.takeWhile_cons, hl.1, ih hl.2]

theorem jsTrimRight_append_cons {d : Char} (hd : isJsWhitespace d = false)
    (a b : List Char) : jsTrimRight (a ++ d :: b) = a ++ d :: jsTrimRight b := by
  unfold jsTrimRight
  rw [show a ++ d :: b = (a ++ [d]) ++ b by simp]
  rw [List.reverse_append, List.dropWhile_append]
  by_cases hb : (b.reverse.dropWhile isJsWhitespace).isEmpty = true
  · rw [if_pos hb]
    rw [List.reverse_append]
    simp only [List.reverse_cons, List.reverse_nil, List.nil_append, List.singleton_append,
      List.dropWhile_cons, hd]
    rw [List.isEmpty_iff] at hb
    simp [hb]
  · rw [if_neg hb]
    rw [List.reverse_append, List.reverse_append]
    simp

theorem dropWhile_cons_false {p : Char → Bool} {c : Char} (l : List Char)
    (hc : p c = false) : (c :: l).dropWhile p = c :: l := by
  simp [List.dropWhile_cons, hc]

/-! ### Lemmas about the filename sanitizer -/

theorem sanitizedChar_ranges {c : Char} (h : isSanitizedChar c = true) :
    (97 ≤ c.toNat ∧ c.toNat ≤ 122) ∨ (48 ≤ c.toNat ∧ c.toNat ≤ 57) ∨ c.toNat = 45 := by
  simp only [isSanitizedChar, Bool.or_eq_true, Bool.and_eq_true, decide_eq_true_eq] at h
  omega

theorem sanitizedChar_not_ws {c : Char} (h : isSanitizedChar c = true) :
    isJsWhitespace c = false := by
  have := sanitizedChar_ranges h
  simp only [isJsWhitespace]
  simp only [Bool.or_eq_false_iff, Bool.and_eq_false_iff, decide_eq_false_iff_not, not_le]
  omega

theorem sanitizedChar_not_upper {c : Char} (h : isSanitizedChar c = true) :
    (65 ≤ c.toNat && c.toNat ≤ 90) = false := by
  have := sanitizedChar_ranges h
  simp only [Bool.and_eq_false_iff, decide_eq_false_iff_not, not_le]
  omega

theorem sanitizedChar_lower_fix {c : Char} (h : isSanitizedChar c = true) :
    jsLowerChar c = c := by
  have := sanitizedChar_ranges h
  rw [jsLowerChar, if_neg (by omega)]

theorem cleanChar_sanitized (c : Char) :
    isSanitizedChar (if isSanitizedChar c then c else '-') = true := by
  split
  · assumption
  · decide

theorem map_clean_all_sanitized (l : List Char) :
    (l.map (fun c => if isSanitizedChar c then c else '-')).all isSanitizedChar = true := by
  induction l with
  | nil => rfl
  | cons c cs ih => simp [cleanChar_sanitized c, ih]

theorem map_clean_id {l : List Char} (h : l.all isSanitizedChar = true) :
    l.map (fun c => if isSanitizedChar c then c else '-') = l := by
  induction l with
  | nil => rfl
  | cons c cs ih =>
    simp only [List.all_cons, Bool.and_eq_true] at h
    simp [h.1, ih h.2]

theorem map_lower_id {l : List Char} (h : l.all isSanitizedChar = true) :
    l.map jsLowerChar = l := by
  induction l with
  | nil => rfl
  | cons c cs ih =>
    simp only [List.all_cons, Bool.and_eq_true] at h
    simp [sanitizedChar_lower_fix h.1, ih h.2]

theorem collapseWhitespace_id {l : List Char} (h : l.all (fun c => !isJsWhitespace c) = true) :
    collapseWhitespace l = l := by
  induction l with
  | nil => rfl
  | cons c cs ih =>
    simp only [List.all_cons, Bool.and_eq_true, Bool.not_eq_true'] at h
    cases cs with
    | nil => simp [collapseWhitespace, h.1]
    | cons c₂ cs₂ =>
      rw [collapseWhitespace, if_neg (by simp [h.1]), if_neg (by simp [h.1])]
      rw [ih h.2]

theorem all_imp {p q : Char → Bool} {l : List Char}
    (hpq : ∀ c, p c = true → q c = true) (h : l.all p = true) : l.all q = true := by
  rw [List.all_eq_true] at *
  exact fun c hc => hpq c (h c hc)

/-- C7: every output of `santizeFilename` uses only `[a-z0-9-]`, hence
contains no whitespace and no uppercase ASCII letter; the function is
idempotent, and maps the already-sanitized `arrow-right` to itself. -/
theorem santizeFilename_charset_idempotent (s : String) :
    (santizeFilename s).data.all isSanitizedChar = true ∧
    (santizeFilename s).data.all (fun c => !isJsWhitespace c) = true ∧
    (santizeFilename s).data.all (fun c => !(65 ≤ c.toNat && c.toNat ≤ 90)) = true ∧
    santizeFilename (santizeFilename s) = santizeFilename s ∧
    santizeFilename "arrow-right" = "arrow-right" := by
  have hok : (santizeFilename s).data.all isSanitizedChar = true := by
    unfold santizeFilename
    exact map_clean_all_sanitized _
  refine ⟨hok, ?_, ?_, ?_, by decide⟩
  · exact all_imp (fun c hc => by simp [sanitizedChar_not_ws hc]) hok
  · exact all_imp (fun c hc => by simp [sanitizedChar_not_upper hc]) hok
  · show santizeFilename (santizeFilename s) = santizeFilename s
    conv_lhs => rw [santizeFilename]
    rw [show (santizeFilename s).data.map jsLowerChar = (santizeFilename s).data from
      map_lower_id hok]
    rw [show collapseWhitespace (santizeFilename s).data = (santizeFilename s).data from
      collapseWhitespace_id (all_imp (fun c hc => by simp [sanitizedChar_not_ws hc]) hok)]
    rw [show (santizeFilename s).data.map (fun c => if isSanitizedChar c then c else '-') =
      (santizeFilename s).data from map_clean_id hok]

/-! ### Claim C6: URL building -/

/-- The heroicons preset exactly as in the `IconInput` test fixtures. -/
def heroiconsRepo : RepositoryConfig :=
  { name := "heroicons", owner := "tailwindlabs", repo := "heroicons",
    branch := some "master", pathTemplate := "optimized/24/\x7bvariant\x7d/\x7biconName\x7d.svg" }

/-- The `arrow-right` outline descriptor used by the URL-builder test. -/
def arrowRightIcon : IconInput :=
  { output := "./icons", name := "arrow-right", filename := "arrow-right",
    variant := some "outline", size := some 24, repository := heroiconsRepo }

/-- A descriptor whose repository preset has no branch set. -/
def lucideIcon : IconInput :=
  { output := "./icons", name := "settings", filename := "settings",
    repository := { name := "lucide", owner := "lucide-icons", repo := "lucide",
                    pathTemplate := "icons/\x7biconName\x7d.svg" } }

/-- C6: `buildUrl` on the heroicons preset with branch `master`, variant
`outline` and name `arrow-right` yields exactly the expected raw URL;
and for every descriptor whose repository sets no branch, the URL uses
`main` as the branch segment. -/
theorem buildUrl_heroicons_and_default_branch :
    arrowRightIcon.buildUrl =
      "https://raw.githubusercontent.com/tailwindlabs/heroicons/master/optimized/24/outline/arrow-right.svg" ∧
    ∀ icon : IconInput, icon.repository.branch = none →
      icon.buildUrl = "https://raw.githubusercontent.com/" ++ icon.repository.owner ++ "/" ++
        icon.repository.repo ++ "/main/" ++ icon.substitutedPath := by
  constructor
  · decide
  · intro icon h
    have hb : branchSegment icon.repository = "main" := by simp [branchSegment, h]
    rw [IconInput.buildUrl, hb,
      show ("/main/" : String) = "/" ++ "main" ++ "/" from by decide]
    simp [String.append_assoc]

/-- Witness for C6 at a concrete branchless descriptor. -/
theorem buildUrl_heroicons_and_default_branch_witness :
    lucideIcon.buildUrl =
      "https://raw.githubusercontent.com/lucide-icons/lucide/main/icons/settings.svg" :=
  (buildUrl_heroicons_and_default_branch.2 lucideIcon rfl).trans (by decide)

/-! ### Claim C8: the overwrite flag is dead -/

/-- C8: `saveToFile` never reads the `overwrite` flag: two descriptors
differing only in that flag produce identical write outcomes, and the
write unconditionally stores the SVG text at the computed path whatever
the filesystem previously held there. -/
theorem saveToFile_independent_of_overwrite (icon : IconInput)
    (fs : String → Option String) (b₁ b₂ : Bool) :
    ({ icon with overwrite := b₁ } : IconInput).saveToFile fs =
      ({ icon with overwrite := b₂ } : IconInput).saveToFile fs ∧
    ∀ svg, jsTruthyStr icon.svgText = some svg →
      ∃ write, icon.saveToFile fs = Except.ok write ∧ write icon.savePath = some svg := by
  constructor
  · rfl
  · intro svg h
    simp only [IconInput.saveToFile, h]
    exact ⟨_, rfl, by simp⟩

/-- A descriptor with downloaded text, for the C8 witness. -/
def savedIcon : IconInput :=
  { output := "/tmp/test-icons", name := "test-icon", filename := "test-icon",
    repository := heroiconsRepo, svgText := some "<svg><path d=\x22M0 0\x22/></svg>" }

/-- Witness for C8: a filesystem already holding a file at the target
path is overwritten, identically for both flag values. -/
theorem saveToFile_independent_of_overwrite_witness :
    ({ savedIcon with overwrite := true } : IconInput).saveToFile (fun _ => some "old") =
      ({ savedIcon with overwrite := false } : IconInput).saveToFile (fun _ => some "old") ∧
    ∃ write, savedIcon.saveToFile (fun _ => some "old") = Except.ok write ∧
      write savedIcon.savePath = some "<svg><path d=\x22M0 0\x22/></svg>" :=
  ⟨(saveToFile_independent_of_overwrite savedIcon (fun _ => some "old") true false).1,
   (saveToFile_independent_of_overwrite savedIcon (fun _ => some "old") true false).2
     "<svg><path d=\x22M0 0\x22/></svg>" (by decide)⟩

/-! ### Claims C2, C3, C10: the fetch step -/

/-- A network returning success with an empty body on every URL. -/
def emptyBodyNet : String → HttpResponse :=
  fun _ => { ok := true, status := 200, statusText := "OK", bodyText := "" }

/-- A network returning 404 on every URL. -/
def notFoundNet : String → HttpResponse :=
  fun _ => { ok := false, status := 404, statusText := "Not Found", bodyText := "" }

/-- A network returning success with a fixed non-empty body. -/
def okBodyNet : String → HttpResponse :=
  fun _ => { ok := true, status := 200, statusText := "OK",
             bodyText := "<svg><path d=\x22M0 0\x22/></svg>" }

/-- A fresh descriptor with no SVG text yet. -/
def freshIcon : IconInput :=
  { output := ".", name := "star", filename := "star",
    repository := { name := "feather", owner := "feathericons", repo := "feather",
                    pathTemplate := "icons/\x7biconName\x7d.svg" } }

/-- C2 counterexample: after downloading an empty response body the
descriptor's SVG text is populated (`some ""`), yet a second
`grabSvgText` call performs another network fetch — so with the claim's
reading of "populated" the guard fails, and the text is fetched twice. -/
theorem grabSvgText_fetches_twice_on_empty_body :
    (freshIcon.grabSvgText emptyBodyNet).icon.svgText = some "" ∧
    (freshIcon.grabSvgText emptyBodyNet).fetches = 1 ∧
    ((freshIcon.grabSvgText emptyBodyNet).icon.grabSvgText emptyBodyNet).fetches = 1 := by
  decide

/-- C2 (amended): when the stored SVG text is truthy (present and
non-empty) the call performs no fetch and leaves the descriptor
unchanged; consequently the text is fetched at most once as long as the
stored result is a non-empty string. -/
theorem grabSvgText_noop_when_truthy (net net₂ : String → HttpResponse) (icon : IconInput) :
    ((jsTruthyStr icon.svgText).isSome = true →
      (icon.grabSvgText net).fetches = 0 ∧ (icon.grabSvgText net).icon = icon) ∧
    (∀ s, (icon.grabSvgText net).icon.svgText = some s → s ≠ "" →
      ((icon.grabSvgText net).icon.grabSvgText net₂).fetches = 0) := by
  constructor
  · intro h
    simp [IconInput.grabSvgText, h]
  · intro s hs hne
    obtain ⟨r, hr⟩ : ∃ r, (freshIcon.grabSvgText net).icon = r := ⟨_, rfl⟩
    obtain ⟨r', hr'⟩ : ∃ r', (icon.grabSvgText net).icon = r' := ⟨_, rfl⟩
    rw [hr'] at hs ⊢
    simp [IconInput.grabSvgText, jsTruthyStr, hs, hne]

/-- A descriptor whose SVG text is already a non-empty string. -/
def populatedIcon : IconInput :=
  { freshIcon with svgText := some "<svg>existing</svg>" }

/-- Witness for C2 (amended): a truthy descriptor is untouched and a
successful non-empty download is not refetched. -/
theorem grabSvgText_noop_when_truthy_witness :
    (populatedIcon.grabSvgText notFoundNet).fetches = 0 ∧
    (populatedIcon.grabSvgText notFoundNet).icon = populatedIcon ∧
    ((freshIcon.grabSvgText okBodyNet).icon.grabSvgText notFoundNet).fetches = 0 := by
  have h₁ := grabSvgText_noop_when_truthy notFoundNet notFoundNet populatedIcon
  have h₂ := grabSvgText_noop_when_truthy okBodyNet notFoundNet freshIcon
  exact ⟨(h₁.1 (by decide)).1, (h₁.1 (by decide)).2,
    h₂.2 "<svg><path d=\x22M0 0\x22/></svg>" (by decide) (by decide)⟩

/-- C3: when the guard lets a request through, a non-success response
makes `grabSvgText` report to the log collaborator and throw one error
message naming the icon name, the URL, the status code and the status
text, leaving the descriptor unchanged; a success response stores the
body text on the descriptor without logging or throwing. -/
theorem grabSvgText_error_reporting (net : String → HttpResponse) (icon : IconInput)
    (hguard : (jsTruthyStr icon.svgText).isSome = false) :
    ((net icon.buildUrl).ok = false →
      (icon.grabSvgText net).thrown = some ("Failed to download icon " ++ icon.name ++
          " from " ++ icon.buildUrl ++ ": " ++ toString (net icon.buildUrl).status ++ " " ++
          (net icon.buildUrl).statusText) ∧
      (icon.grabSvgText net).logged = ["Failed to download icon " ++ icon.name ++
          " from " ++ icon.buildUrl ++ ": " ++ toString (net icon.buildUrl).status ++ " " ++
          (net icon.buildUrl).statusText] ∧
      (icon.grabSvgText net).icon = icon ∧
      (icon.grabSvgText net).fetches = 1) ∧
    ((net icon.buildUrl).ok = true →
      (icon.grabSvgText net).icon = { icon with svgText := some (net icon.buildUrl).bodyText } ∧
      (icon.grabSvgText net).thrown = none ∧
      (icon.grabSvgText net).logged = []) := by
  constructor
  · intro hok
    simp [IconInput.grabSvgText, hguard, hok]
  · intro hok
    simp [IconInput.grabSvgText, hguard, hok]

/-- Witness for C3: a concrete 404 and a concrete success. -/
theorem grabSvgText_error_reporting_witness :
    (freshIcon.grabSvgText notFoundNet).thrown =
      some "Failed to download icon star from https://raw.githubusercontent.com/feathericons/feather/main/icons/star.svg: 404 Not Found" ∧
    (freshIcon.grabSvgText notFoundNet).logged =
      ["Failed to download icon star from https://raw.githubusercontent.com/feathericons/feather/main/icons/star.svg: 404 Not Found"] ∧
    (freshIcon.grabSvgText notFoundNet).icon = freshIcon ∧
    (freshIcon.grabSvgText okBodyNet).icon.svgText = some "<svg><path d=\x22M0 0\x22/></svg>" := by
  have herr := (grabSvgText_error_reporting notFoundNet freshIcon (by decide)).1 (by decide)
  have hok := (grabSvgText_error_reporting okBodyNet freshIcon (by decide)).2 (by decide)
  refine ⟨herr.1.trans (by decide), herr.2.1.trans (by decide), herr.2.2.1, ?_⟩
  rw [hok.1]
  decide

/-- C10: a descriptor whose stored SVG text is the empty string is not
treated as cached — `grabSvgText` fetches again. -/
theorem grabSvgText_refetches_when_svgText_empty (icon : IconInput)
    (net : String → HttpResponse) (h : icon.svgText = some "") :
    (icon.grabSvgText net).fetches = 1 := by
  unfold IconInput.grabSvgText
  rw [h]
  rw [show (jsTruthyStr (some "")).isSome = false from by decide, if_neg Bool.false_ne_true]
  dsimp only
  split <;> rfl

/-- Witness for C10. -/
theorem grabSvgText_refetches_when_svgText_empty_witness :
    (({ freshIcon with svgText := some "" } : IconInput).grabSvgText emptyBodyNet).fetches = 1 :=
  grabSvgText_refetches_when_svgText_empty { freshIcon with svgText := some "" }
    emptyBodyNet rfl

/-! ### Claim C9: only the first placeholder occurrence is substituted -/

theorem isPrefixOf_length_le {p l : List Char} (h : p.isPrefixOf l = true) :
    p.length ≤ l.length :=
  (List.isPrefixOf_iff_prefix.mp h).length_le

theorem drop_append_of_le {n : Nat} {u v : List Char} (h : n ≤ u.length) :
    (u ++ v).drop n = u.drop n ++ v := by
  rw [List.drop_append_eq_append_drop, Nat.sub_eq_zero_of_le h, List.drop_zero]

theorem isPrefixOf_append_cases {p u w : List Char} (h : p.isPrefixOf (u ++ w) = true) :
    p.isPrefixOf u = true ∨
      (u.isPrefixOf p = true ∧ (p.drop u.length).isPrefixOf w = true) := by
  induction u generalizing p with
  | nil =>
    refine Or.inr ⟨by simp [List.isPrefixOf], ?_⟩
    simpa using h
  | cons a u₀ ih =>
    cases p with
    | nil => exact Or.inl (by simp [List.isPrefixOf])
    | cons b p₀ =>
      rw [List.cons_append] at h
      simp only [List.isPrefixOf, Bool.and_eq_true] at h
      obtain ⟨hba, h'⟩ := h
      rcases ih h' with h1 | ⟨h2, h3⟩
      · exact Or.inl (by simp [List.isPrefixOf, hba, h1])
      · refine Or.inr ⟨?_, ?_⟩
        · have hab : (a == b) = true := by
            have hb : b = a := by simpa using hba
            simp [hb]
          simp [List.isPrefixOf, hab, h2]
        · simpa using h3

theorem isPrefixOf_append_false {p u w : List Char}
    (h1 : p.isPrefixOf u = false) (h2 : u.isPrefixOf p = false) :
    p.isPrefixOf (u ++ w) = false := by
  by_contra hc
  rw [Bool.not_eq_false] at hc
  rcases isPrefixOf_append_cases hc with ha | ⟨hb, _⟩
  · simp [ha] at h1
  · simp [hb] at h2

theorem replaceFirst_keeps_tail (pat repl : List Char) (hpat : pat ≠ []) :
    ∀ x y, ∃ x', replaceFirst pat repl (x ++ (pat ++ y)) = x' ++ y := by
  intro x
  induction x with
  | nil =>
    intro y
    refine ⟨repl, ?_⟩
    cases pat with
    | nil => exact absurd rfl hpat
    | cons p ps =>
      show replaceFirst (p :: ps) repl (p :: (ps ++ y)) = repl ++ y
      rw [replaceFirst, if_pos (show (p :: ps).isPrefixOf (p :: (ps ++ y)) = true from
        isPrefixOf_append_self (p :: ps) y)]
      rw [show List.drop (p :: ps).length (p :: (ps ++ y)) = y from List.drop_left (p :: ps) y]
  | cons c x₀ ih =>
    intro y
    show ∃ x', replaceFirst pat repl (c :: (x₀ ++ (pat ++ y))) = x' ++ y
    by_cases h : pat.isPrefixOf (c :: (x₀ ++ (pat ++ y))) = true
    · refine ⟨repl ++ (c :: (x₀ ++ pat)).drop pat.length, ?_⟩
      rw [replaceFirst, if_pos h]
      have hlen : pat.length ≤ (c :: (x₀ ++ pat)).length := by
        simp [List.length_cons, List.length_append]
        omega
      rw [show c :: (x₀ ++ (pat ++ y)) = (c :: (x₀ ++ pat)) ++ y by simp]
      rw [drop_append_of_le hlen]
      simp [List.append_assoc]
    · rw [replaceFirst, if_neg h]
      obtain ⟨x', hx'⟩ := ih y
      exact ⟨c :: x', by rw [hx']; rfl⟩

theorem replaceFirst_skips_block (pat repl : List Char) :
    ∀ (u y : List Char),
      (∀ j, j < u.length → pat.isPrefixOf (u.drop j) = false ∧
        (u.drop j).isPrefixOf pat = false) →
      replaceFirst pat repl (u ++ y) = u ++ replaceFirst pat repl y := by
  intro u
  induction u with
  | nil => intro y _; simp
  | cons a u₀ ih =>
    intro y hu
    have h0 := hu 0 (by simp)
    simp only [List.drop_zero] at h0
    have hnm : pat.isPrefixOf ((a :: u₀) ++ y) = false :=
      isPrefixOf_append_false h0.1 h0.2
    show replaceFirst pat repl (a :: (u₀ ++ y)) = a :: (u₀ ++ replaceFirst pat repl y)
    rw [replaceFirst, if_neg (by simp [show pat.isPrefixOf (a :: (u₀ ++ y)) = false from hnm])]
    rw [ih y (fun j hj => by
      have := hu (j + 1) (by simpa using Nat.succ_lt_succ hj)
      simpa only [List.drop_succ_cons] using this)]

theorem match_le_head {pat q w : List Char} {c : Char} {x₀ : List Char}
    (hA : ∀ n, n < pat.length → (pat.drop n).isPrefixOf q = false ∧
      q.isPrefixOf (pat.drop n) = false)
    (h : pat.isPrefixOf ((c :: x₀) ++ (q ++ w)) = true) :
    pat.length ≤ (c :: x₀).length := by
  by_contra hgt
  push_neg at hgt
  rcases isPrefixOf_append_cases h with h1 | ⟨_, h3⟩
  · exact absurd (isPrefixOf_length_le h1) (by omega)
  · rcases isPrefixOf_append_cases h3 with h4 | ⟨h5, _⟩
    · have hfalse := (hA (c :: x₀).length hgt).1
      rw [h4] at hfalse
      exact absurd hfalse (by decide)
    · have hfalse := (hA (c :: x₀).length hgt).2
      rw [h5] at hfalse
      exact absurd hfalse (by decide)

theorem replaceFirst_preserves_block (pat repl q : List Char)
    (hA : ∀ n, n < pat.length → (pat.drop n).isPrefixOf q = false ∧
      q.isPrefixOf (pat.drop n) = false)
    (hB : ∀ j, j < q.length → pat.isPrefixOf (q.drop j) = false ∧
      (q.drop j).isPrefixOf pat = false) :
    ∀ x y, ∃ x' y', replaceFirst pat repl (x ++ (q ++ y)) = x' ++ (q ++ y') := by
  intro x
  induction x with
  | nil =>
    intro y
    exact ⟨[], replaceFirst pat repl y, by
      rw [List.nil_append, replaceFirst_skips_block pat repl q y hB, List.nil_append]⟩
  | cons c x₀ ih =>
    intro y
    show ∃ x' y', replaceFirst pat repl (c :: (x₀ ++ (q ++ y))) = x' ++ (q ++ y')
    by_cases h : pat.isPrefixOf (c :: (x₀ ++ (q ++ y))) = true
    · have hlen : pat.length ≤ (c :: x₀).length :=
        match_le_head hA (show pat.isPrefixOf ((c :: x₀) ++ (q ++ y)) = true from h)
      refine ⟨repl ++ (c :: x₀).drop pat.length, y, ?_⟩
      rw [replaceFirst, if_pos h]
      rw [show c :: (x₀ ++ (q ++ y)) = (c :: x₀) ++ (q ++ y) from rfl]
      rw [drop_append_of_le hlen]
      simp [List.append_assoc]
    · rw [replaceFirst, if_neg h]
      obtain ⟨x', y', hxy⟩ := ih y
      exact ⟨c :: x', y', by rw [hxy]; rfl⟩

theorem replaceFirst_preserves_two (pat repl q : List Char)
    (hA : ∀ n, n < pat.length → (pat.drop n).isPrefixOf q = false ∧
      q.isPrefixOf (pat.drop n) = false)
    (hB : ∀ j, j < q.length → pat.isPrefixOf (q.drop j) = false ∧
      (q.drop j).isPrefixOf pat = false) :
    ∀ x m y, ∃ x' m' y',
      replaceFirst pat repl (x ++ (q ++ (m ++ (q ++ y)))) =
        x' ++ (q ++ (m' ++ (q ++ y'))) := by
  intro x
  induction x with
  | nil =>
    intro m y
    obtain ⟨m', y', hm⟩ := replaceFirst_preserves_block pat repl q hA hB m y
    exact ⟨[], m', y', by
      rw [List.nil_append, replaceFirst_skips_block pat repl q _ hB, hm, List.nil_append]⟩
  | cons c x₀ ih =>
    intro m y
    show ∃ x' m' y', replaceFirst pat repl (c :: (x₀ ++ (q ++ (m ++ (q ++ y))))) =
      x' ++ (q ++ (m' ++ (q ++ y')))
    by_cases h : pat.isPrefixOf (c :: (x₀ ++ (q ++ (m ++ (q ++ y))))) = true
    · have hlen : pat.length ≤ (c :: x₀).length :=
        match_le_head hA (show pat.isPrefixOf ((c :: x₀) ++ (q ++ (m ++ (q ++ y)))) = true from h)
      refine ⟨repl ++ (c :: x₀).drop pat.length, m, y, ?_⟩
      rw [replaceFirst, if_pos h]
      rw [show c :: (x₀ ++ (q ++ (m ++ (q ++ y)))) = (c :: x₀) ++ (q ++ (m ++ (q ++ y))) from rfl]
      rw [drop_append_of_le hlen]
      simp [List.append_assoc]
    · rw [replaceFirst, if_neg h]
      obtain ⟨x', m', y', hxy⟩ := ih m y
      exact ⟨c :: x', m', y', by rw [hxy]; rfl⟩

/-- C9: `buildUrl` substitutes only the first occurrence of each
placeholder.  Whenever the path template shows a `\x7bvariant\x7d`,
`\x7bsize\x7d` or `\x7biconName\x7d` occurrence after an earlier one
(the surrounding pieces `a`, `m`, `b` are arbitrary and may contain any
further placeholders), that later occurrence survives all three
substitutions verbatim — the placeholder literals can never overlap one
another — and the resulting URL still contains the literal placeholder. -/
theorem buildUrl_substitutes_only_first_occurrence :
    (∀ (icon : IconInput) (a m b : List Char),
      icon.repository.pathTemplate.data =
        a ++ ("\x7bvariant\x7d".data ++ (m ++ ("\x7bvariant\x7d".data ++ b))) →
      ∃ x y, icon.substitutedPath.data = x ++ ("\x7bvariant\x7d".data ++ y) ∧
        hasSubstr "\x7bvariant\x7d".data icon.buildUrl.data = true) ∧
    (∀ (icon : IconInput) (a m b : List Char),
      icon.repository.pathTemplate.data =
        a ++ ("\x7bsize\x7d".data ++ (m ++ ("\x7bsize\x7d".data ++ b))) →
      ∃ x y, icon.substitutedPath.data = x ++ ("\x7bsize\x7d".data ++ y) ∧
        hasSubstr "\x7bsize\x7d".data icon.buildUrl.data = true) ∧
    (∀ (icon : IconInput) (a m b : List Char),
      icon.repository.pathTemplate.data =
        a ++ ("\x7biconName\x7d".data ++ (m ++ ("\x7biconName\x7d".data ++ b))) →
      ∃ x y, icon.substitutedPath.data = x ++ ("\x7biconName\x7d".data ++ y) ∧
        hasSubstr "\x7biconName\x7d".data icon.buildUrl.data = true) := by
  refine ⟨?_, ?_, ?_⟩
  · intro icon a m b htpl
    obtain ⟨x₁, h₁⟩ := replaceFirst_keeps_tail "\x7bvariant\x7d".data
      (variantString icon.variant).data (by decide) a (m ++ ("\x7bvariant\x7d".data ++ b))
    obtain ⟨x₂, y₂, h₂⟩ := replaceFirst_preserves_block "\x7bsize\x7d".data
      (sizeString icon.size).data "\x7bvariant\x7d".data (by decide) (by decide)
      (x₁ ++ m) b
    obtain ⟨x₃, y₃, h₃⟩ := replaceFirst_preserves_block "\x7biconName\x7d".data
      icon.name.data "\x7bvariant\x7d".data (by decide) (by decide) x₂ y₂
    have hsub : icon.substitutedPath.data = x₃ ++ ("\x7bvariant\x7d".data ++ y₃) := by
      show replaceFirst "\x7biconName\x7d".data icon.name.data
        (replaceFirst "\x7bsize\x7d".data (sizeString icon.size).data
          (replaceFirst "\x7bvariant\x7d".data (variantString icon.variant).data
            icon.repository.pathTemplate.data)) = _
      rw [htpl, h₁]
      rw [show x₁ ++ (m ++ ("\x7bvariant\x7d".data ++ b)) =
        (x₁ ++ m) ++ ("\x7bvariant\x7d".data ++ b) by simp]
      rw [h₂, h₃]
    refine ⟨x₃, y₃, hsub, ?_⟩
    rw [IconInput.buildUrl]
    simp only [String.data_append]
    apply hasSubstr_append_left
    rw [hsub]
    apply hasSubstr_append_left
    exact hasSubstr_of_isPrefixOf (isPrefixOf_append_self _ _)
  · intro icon a m b htpl
    obtain ⟨x₁, m₁, y₁, h₁⟩ := replaceFirst_preserves_two "\x7bvariant\x7d".data
      (variantString icon.variant).data "\x7bsize\x7d".data (by decide) (by decide) a m b
    obtain ⟨x₂, h₂⟩ := replaceFirst_keeps_tail "\x7bsize\x7d".data
      (sizeString icon.size).data (by decide) x₁ (m₁ ++ ("\x7bsize\x7d".data ++ y₁))
    obtain ⟨x₃, y₃, h₃⟩ := replaceFirst_preserves_block "\x7biconName\x7d".data
      icon.name.data "\x7bsize\x7d".data (by decide) (by decide) (x₂ ++ m₁) y₁
    have hsub : icon.substitutedPath.data = x₃ ++ ("\x7bsize\x7d".data ++ y₃) := by
      show replaceFirst "\x7biconName\x7d".data icon.name.data
        (replaceFirst "\x7bsize\x7d".data (sizeString icon.size).data
          (replaceFirst "\x7bvariant\x7d".data (variantString icon.variant).data
            icon.repository.pathTemplate.data)) = _
      rw [htpl, h₁, h₂]
      rw [show x₂ ++ (m₁ ++ ("\x7bsize\x7d".data ++ y₁)) =
        (x₂ ++ m₁) ++ ("\x7bsize\x7d".data ++ y₁) by simp]
      rw [h₃]
    refine ⟨x₃, y₃, hsub, ?_⟩
    rw [IconInput.buildUrl]
    simp only [String.data_append]
    apply hasSubstr_append_left
    rw [hsub]
    apply hasSubstr_append_left
    exact hasSubstr_of_isPrefixOf (isPrefixOf_append_self _ _)
  · intro icon a m b htpl
    obtain ⟨x₁, m₁, y₁, h₁⟩ := replaceFirst_preserves_two "\x7bvariant\x7d".data
      (variantString icon.variant).data "\x7biconName\x7d".data (by decide) (by decide) a m b
    obtain ⟨x₂, m₂, y₂, h₂⟩ := replaceFirst_preserves_two "\x7bsize\x7d".data
      (sizeString icon.size).data "\x7biconName\x7d".data (by decide) (by decide) x₁ m₁ y₁
    obtain ⟨x₃, h₃⟩ := replaceFirst_keeps_tail "\x7biconName\x7d".data
      icon.name.data (by decide) x₂ (m₂ ++ ("\x7biconName\x7d".data ++ y₂))
    have hsub : icon.substitutedPath.data =
        (x₃ ++ m₂) ++ ("\x7biconName\x7d".data ++ y₂) := by
      show replaceFirst "\x7biconName\x7d".data icon.name.data
        (replaceFirst "\x7bsize\x7d".data (sizeString icon.size).data
          (replaceFirst "\x7bvariant\x7d".data (variantString icon.variant).data
            icon.repository.pathTemplate.data)) = _
      rw [htpl, h₁, h₂, h₃]
      simp [List.append_assoc]
    refine ⟨x₃ ++ m₂, y₂, hsub, ?_⟩
    rw [IconInput.buildUrl]
    simp only [String.data_append]
    apply hasSubstr_append_left
    rw [hsub]
    apply hasSubstr_append_left
    exact hasSubstr_of_isPrefixOf (isPrefixOf_append_self _ _)

/-- A descriptor whose template names `\x7bvariant\x7d` twice. -/
def doubledVariantIcon : IconInput :=
  { output := ".", name := "x", filename := "x", variant := some "outline",
    repository := { name := "demo", owner := "o", repo := "r",
                    pathTemplate := "icons/\x7bvariant\x7d/\x7bvariant\x7d/x.svg" } }

/-- A descriptor whose template names `\x7bsize\x7d` twice, next to an
`\x7biconName\x7d` placeholder. -/
def doubledSizeIcon : IconInput :=
  { output := ".", name := "x", filename := "x", size := some 24,
    repository := { name := "demo2", owner := "o", repo := "r",
                    pathTemplate := "i/\x7bsize\x7d/\x7bsize\x7d/\x7biconName\x7d.svg" } }

/-- A descriptor whose template names `\x7biconName\x7d` twice. -/
def doubledNameIcon : IconInput :=
  { output := ".", name := "star", filename := "star",
    repository := { name := "demo3", owner := "o", repo := "r",
                    pathTemplate := "i/\x7biconName\x7d/\x7biconName\x7d.svg" } }

/-- Witness for C9 at concrete descriptors, one per placeholder. -/
theorem buildUrl_substitutes_only_first_occurrence_witness :
    hasSubstr "\x7bvariant\x7d".data doubledVariantIcon.buildUrl.data = true ∧
    hasSubstr "\x7bsize\x7d".data doubledSizeIcon.buildUrl.data = true ∧
    hasSubstr "\x7biconName\x7d".data doubledNameIcon.buildUrl.data = true := by
  obtain ⟨_, _, _, hv⟩ := buildUrl_substitutes_only_first_occurrence.1 doubledVariantIcon
    "icons/".data "/".data "/x.svg".data (by decide)
  obtain ⟨_, _, _, hs⟩ := buildUrl_substitutes_only_first_occurrence.2.1 doubledSizeIcon
    "i/".data "/".data "/\x7biconName\x7d.svg".data (by decide)
  obtain ⟨_, _, _, hn⟩ := buildUrl_substitutes_only_first_occurrence.2.2 doubledNameIcon
    "i/".data "/".data ".svg".data (by decide)
  exact ⟨hv, hs, hn⟩

/-! ### Claim C1: the exported component name -/

/-- The TSX-transform descriptor of the integration test: filename
`check-icon`, transform flag set, with downloaded markup. -/
def checkIcon : IconInput :=
  { output := "/tmp/icd-integration-test", name := "check", filename := "check-icon",
    repository := heroiconsRepo, tsxTransform := true, svgText := some "<svg></svg>" }

set_option maxRecDepth 100000 in
set_option maxHeartbeats 1000000 in
/-- C1 at the failing input: the component name computed from
`check-icon` is `CheckIcon`, but the generated source exports the
hardcoded function `BootstrapHeart` and never mentions `CheckIcon` —
the computed name is ignored by the template. -/
theorem transform_hardcodes_component_name :
    componentNameOfFilename "check-icon" = "CheckIcon" ∧
    (checkIcon.transform.toOption.map (fun out => out.svgText.map (fun t =>
      (hasSubstr "export default function BootstrapHeart".data t.data,
       hasSubstr "CheckIcon".data t.data)))) = some (some (true, false)) := by
  constructor
  · decide
  · decide

/-! ### Claim C5: width/height prop replacement -/

theorem quotedAttrMatcher_fires (pat repl v b : List Char)
    (hv : v.all (fun c => c != '\x22') = true) :
    quotedAttrMatcher pat repl (pat ++ (v ++ ('\x22' :: b))) =
      some (pat.length + v.length + 1, repl) := by
  have h1 : (pat ++ (v ++ ('\x22' :: b))).drop pat.length = v ++ ('\x22' :: b) :=
    List.drop_left _ _
  have h2 : (v ++ ('\x22' :: b)).takeWhile (fun c => c != '\x22') = v :=
    takeWhile_append_stop '\x22' b hv (by decide)
  have h3 : (v ++ ('\x22' :: b)).drop v.length = '\x22' :: b := List.drop_left _ _
  simp only [quotedAttrMatcher, if_pos (isPrefixOf_append_self pat (v ++ ('\x22' :: b))),
    h1, h2, h3]

/-- The test descriptor `<svg width="24" height="24">`. -/
def sizedIcon : IconInput :=
  { output := ".", name := "test", filename := "test", repository := heroiconsRepo,
    svgText := some "<svg width=\x2224\x22 height=\x2224\x22>" }

set_option maxRecDepth 100000 in
set_option maxHeartbeats 1000000 in
/-- C5 counterexample: the input `<svg data-x="width=5">` has no
`width="..."` attribute, so the claim promises an injected
`width=\x7bwidth\x7d`; but since the text contains the bare substring
`width=`, the code takes the replacement branch, finds no match, and
injects nothing — the output has neither `width=\x7bwidth\x7d` nor any
`width="` text. -/
theorem width_injection_skipped_despite_missing_attribute :
    (({ output := ".", name := "w", filename := "w", repository := heroiconsRepo,
        svgText := some "<svg data-x=\x22width=5\x22>" } : IconInput).processSvgForReact
          "X").toOption.map
      (fun t => (hasSubstr "width=\x7bwidth\x7d".data t.data,
                 hasSubstr "width=\x22".data t.data)) = some (false, false) := by
  decide

set_option maxRecDepth 100000 in
set_option maxHeartbeats 1000000 in
/-- C5 (amended): the branch condition is the substring test
`includes('width=')`, not the existence of a `width="..."` attribute.
When a `width="v"` attribute heads the text, it is rewritten to
`width=\x7bwidth\x7d` and scanning continues behind it; when the text
contains no `width=` at all, the prop is injected on the first `<svg`;
the same holds for `height`; and on `<svg width="24" height="24">` the
final component source contains `width=\x7bwidth\x7d` and
`height=\x7bheight\x7d` and no literal `width="24"`/`height="24"`. -/
theorem width_height_prop_replacement :
    (∀ v b, v.all (fun c => c != '\x22') = true →
      widthStage ("width=\x22".data ++ (v ++ ('\x22' :: b))) =
        "width=\x7bwidth\x7d".data ++
          gsub (quotedAttrMatcher "width=\x22".data "width=\x7bwidth\x7d".data) b) ∧
    (∀ r, hasSubstr "width=".data ("<svg".data ++ r) = false →
      widthStage ("<svg".data ++ r) = "<svg width=\x7bwidth\x7d".data ++ r) ∧
    (∀ v b, v.all (fun c => c != '\x22') = true →
      heightStage ("height=\x22".data ++ (v ++ ('\x22' :: b))) =
        "height=\x7bheight\x7d".data ++
          gsub (quotedAttrMatcher "height=\x22".data "height=\x7bheight\x7d".data) b) ∧
    (∀ r, hasSubstr "height=".data ("<svg".data ++ r) = false →
      heightStage ("<svg".data ++ r) = "<svg height=\x7bheight\x7d".data ++ r) ∧
    (sizedIcon.processSvgForReact "X").toOption.map (fun t =>
      (hasSubstr "width=\x7bwidth\x7d".data t.data, hasSubstr "height=\x7bheight\x7d".data t.data,
       hasSubstr "width=\x2224\x22".data t.data, hasSubstr "height=\x2224\x22".data t.data)) =
      some (true, true, false, false) := by
  refine ⟨?_, ?_, ?_, ?_, by decide⟩
  · intro v b hv
    have hw : hasSubstr "width=".data ("width=\x22".data ++ (v ++ ('\x22' :: b))) = true := by
      apply hasSubstr_of_isPrefixOf
      rw [show ("width=\x22".data : List Char) = "width=".data ++ ['\x22'] from by decide,
        List.append_assoc]
      exact isPrefixOf_append_self _ _
    rw [widthStage, if_pos hw]
    rw [gsub_eq_of_match (by simp) (quotedAttrMatcher_fires "width=\x22".data
      "width=\x7bwidth\x7d".data v b hv)]
    rw [show ("width=\x22".data ++ (v ++ ('\x22' :: b))).drop
        ("width=\x22".data.length + v.length + 1) = b from by
      rw [show "width=\x22".data ++ (v ++ ('\x22' :: b)) =
        ("width=\x22".data ++ v ++ ['\x22']) ++ b by simp]
      exact List.drop_left' (by simp; omega)]
  · intro r hr
    rw [widthStage, if_neg (by rw [hr]; simp)]
    rw [sub1_eq_of_match (by simp)
      (show litMatcher "<svg".data "<svg width=\x7bwidth\x7d".data ("<svg".data ++ r) =
        some ("<svg".data.length, "<svg width=\x7bwidth\x7d".data) from by
          rw [litMatcher, if_pos (isPrefixOf_append_self _ _)])]
    rw [List.drop_left]
  · intro v b hv
    have hw : hasSubstr "height=".data ("height=\x22".data ++ (v ++ ('\x22' :: b))) = true := by
      apply hasSubstr_of_isPrefixOf
      rw [show ("height=\x22".data : List Char) = "height=".data ++ ['\x22'] from by decide,
        List.append_assoc]
      exact isPrefixOf_append_self _ _
    rw [heightStage, if_pos hw]
    rw [gsub_eq_of_match (by simp) (quotedAttrMatcher_fires "height=\x22".data
      "height=\x7bheight\x7d".data v b hv)]
    rw [show ("height=\x22".data ++ (v ++ ('\x22' :: b))).drop
        ("height=\x22".data.length + v.length + 1) = b from by
      rw [show "height=\x22".data ++ (v ++ ('\x22' :: b)) =
        ("height=\x22".data ++ v ++ ['\x22']) ++ b by simp]
      exact List.drop_left' (by simp; omega)]
  · intro r hr
    rw [heightStage, if_neg (by rw [hr]; simp)]
    rw [sub1_eq_of_match (by simp)
      (show litMatcher "<svg".data "<svg height=\x7bheight\x7d".data ("<svg".data ++ r) =
        some ("<svg".data.length, "<svg height=\x7bheight\x7d".data) from by
          rw [litMatcher, if_pos (isPrefixOf_append_self _ _)])]
    rw [List.drop_left]

/-- Witness for C5 (amended), instantiating both branches concretely. -/
theorem width_height_prop_replacement_witness :
    widthStage "width=\x2224\x22/>".data = "width=\x7bwidth\x7d/>".data ∧
    widthStage "<svg viewBox/>".data = "<svg width=\x7bwidth\x7d viewBox/>".data ∧
    heightStage "height=\x2224\x22/>".data = "height=\x7bheight\x7d/>".data ∧
    heightStage "<svg viewBox/>".data = "<svg height=\x7bheight\x7d viewBox/>".data := by
  have h := width_height_prop_replacement
  refine ⟨?_, ?_, ?_, ?_⟩
  · exact (h.1 "24".data "/>".data (by decide)).trans (by decide)
  · exact (h.2.1 " viewBox/>".data (by decide)).trans (by decide)
  · exact (h.2.2.1 "24".data "/>".data (by decide)).trans (by decide)
  · exact (h.2.2.2.1 " viewBox/>".data (by decide)).trans (by decide)

/-! ### Claim C4: title element and spread marker -/

theorem svgTagTitleMatcher_fires (attrs rest : List Char)
    (h : attrs.all (fun c => c != '>') = true) :
    svgTagTitleMatcher ("<svg".data ++ (attrs ++ ('>' :: rest))) =
      some (4 + attrs.length + 1,
        "<svg".data ++ attrs ++ (">\n        <title>\x7btitle\x7d</title>").data) := by
  have h1 : ("<svg".data ++ (attrs ++ ('>' :: rest))).drop 4 = attrs ++ ('>' :: rest) :=
    List.drop_left' (by decide)
  have h2 : (attrs ++ ('>' :: rest)).takeWhile (fun c => c != '>') = attrs :=
    takeWhile_append_stop '>' rest h (by decide)
  have h3 : (attrs ++ ('>' :: rest)).drop attrs.length = '>' :: rest := List.drop_left _ _
  simp only [svgTagTitleMatcher,
    if_pos (isPrefixOf_append_self "<svg".data (attrs ++ ('>' :: rest))), h1, h2, h3]

theorem litMatcher_none_of_unmatched {pat repl l : List Char}
    (h : pat.isPrefixOf l = false) : litMatcher pat repl l = none := by
  simp [litMatcher, h]

theorem svgTagTitleMatcher_none_of_unmatched {l : List Char}
    (h : "<svg".data.isPrefixOf l = false) : svgTagTitleMatcher l = none := by
  simp [svgTagTitleMatcher, h]

theorem sub1_skips (m : Matcher) :
    ∀ (u rest : List Char),
      (∀ j, j < u.length → m ((u ++ rest).drop j) = none) →
      sub1 m (u ++ rest) = u ++ sub1 m rest := by
  intro u
  induction u with
  | nil => intro rest _; simp
  | cons a u₀ ih =>
    intro rest h
    have h0 : m (a :: (u₀ ++ rest)) = none := by simpa using h 0 (by simp)
    have hrec := ih rest (fun j hj => by
      have := h (j + 1) (by simpa using Nat.succ_lt_succ hj)
      simpa using this)
    show sub1 m (a :: (u₀ ++ rest)) = a :: (u₀ ++ sub1 m rest)
    simp [sub1, h0, hrec]

theorem hasSubstr_false_of_unmatched {pat : List Char} (hne : pat ≠ []) :
    ∀ l : List Char, (∀ j, j < l.length → pat.isPrefixOf (l.drop j) = false) →
      hasSubstr pat l = false := by
  intro l
  induction l with
  | nil =>
    intro _
    cases pat with
    | nil => exact absurd rfl hne
    | cons p ps => rfl
  | cons c cs ih =>
    intro h
    have h0 : pat.isPrefixOf (c :: cs) = false := by simpa using h 0 (by simp)
    have hrec := ih (fun j hj => by
      have := h (j + 1) (by simpa using Nat.succ_lt_succ hj)
      simpa using this)
    simp [hasSubstr, h0, hrec]

theorem gsub_cons_zero {m : Matcher} {c : Char} {cs r : List Char}
    (h : m (c :: cs) = some (0, r)) : gsub m (c :: cs) = c :: gsub m cs := by
  rw [gsub, gsubAux, h]
  rfl

theorem gsub_append_split (m : Matcher) (T : List Char) :
    ∀ (n : Nat) (R : List Char), R.length ≤ n →
      (∀ j, j < R.length → m ((R ++ T).drop j) = m (R.drop j) ∧
        ∀ k r, m (R.drop j) = some (k, r) → j + k ≤ R.length) →
      gsub m (R ++ T) = gsub m R ++ gsub m T := by
  intro n
  induction n with
  | zero =>
    intro R hR _
    have hnil : R = [] := List.length_eq_zero.mp (Nat.le_zero.mp hR)
    subst hnil
    simp [gsub, gsubAux]
  | succ n ih =>
    intro R hR hyp
    cases R with
    | nil => simp [gsub, gsubAux]
    | cons c R₀ =>
      have h0 := hyp 0 (by simp)
      simp only [List.drop_zero] at h0
      have hshiftR₀ : ∀ j, j < R₀.length →
          m ((R₀ ++ T).drop j) = m (R₀.drop j) ∧
          ∀ k' r', m (R₀.drop j) = some (k', r') → j + k' ≤ R₀.length := by
        intro j hj
        have h' := hyp (j + 1) (by simpa using Nat.succ_lt_succ hj)
        have e1 : ((c :: R₀) ++ T).drop (j + 1) = (R₀ ++ T).drop j := by
          rw [show (c :: R₀) ++ T = c :: (R₀ ++ T) from rfl, List.drop_succ_cons]
        have e2 : (c :: R₀).drop (j + 1) = R₀.drop j := List.drop_succ_cons
        constructor
        · have h1 := h'.1
          rw [e1, e2] at h1
          exact h1
        · intro k' r' hk'
          have h2 := h'.2 k' r' (by rw [e2]; exact hk')
          simp only [List.length_cons] at h2
          omega
      have hR₀ : R₀.length ≤ n := by
        simp only [List.length_cons] at hR
        omega
      cases hm : m (c :: R₀) with
      | none =>
        have hmT : m (c :: (R₀ ++ T)) = none := by
          have h01 := h0.1
          rw [show ((c :: R₀) ++ T : List Char) = c :: (R₀ ++ T) from rfl] at h01
          rw [h01]
          exact hm
        rw [show (c :: R₀) ++ T = c :: (R₀ ++ T) from rfl]
        rw [gsub_cons_none hmT, gsub_cons_none hm]
        rw [ih R₀ hR₀ hshiftR₀]
        rfl
      | some kr =>
        obtain ⟨k, r⟩ := kr
        have hmT : m (c :: (R₀ ++ T)) = some (k, r) := by
          have h01 := h0.1
          rw [show ((c :: R₀) ++ T : List Char) = c :: (R₀ ++ T) from rfl] at h01
          rw [h01]
          exact hm
        cases k with
        | zero =>
          rw [show (c :: R₀) ++ T = c :: (R₀ ++ T) from rfl]
          rw [gsub_cons_zero hmT, gsub_cons_zero hm]
          rw [ih R₀ hR₀ hshiftR₀]
          rfl
        | succ k₀ =>
          have hk : k₀ + 1 ≤ (c :: R₀).length := by
            have := h0.2 (k₀ + 1) r hm
            omega
          have hlen' : ((c :: R₀).drop (k₀ + 1)).length ≤ n := by
            simp only [List.length_drop, List.length_cons] at *
            omega
          have hshift : ∀ j, j < ((c :: R₀).drop (k₀ + 1)).length →
              m ((((c :: R₀).drop (k₀ + 1)) ++ T).drop j) =
                m (((c :: R₀).drop (k₀ + 1)).drop j) ∧
              ∀ k' r', m (((c :: R₀).drop (k₀ + 1)).drop j) = some (k', r') →
                j + k' ≤ ((c :: R₀).drop (k₀ + 1)).length := by
            intro j hj
            have hj' : (k₀ + 1) + j < (c :: R₀).length := by
              simp only [List.length_drop] at hj
              omega
            have h' := hyp ((k₀ + 1) + j) hj'
            have e1 : (((c :: R₀).drop (k₀ + 1)) ++ T).drop j =
                ((c :: R₀) ++ T).drop ((k₀ + 1) + j) := by
              rw [← drop_append_of_le hk, List.drop_drop]
            have e2 : ((c :: R₀).drop (k₀ + 1)).drop j = (c :: R₀).drop ((k₀ + 1) + j) :=
              List.drop_drop j (k₀ + 1) _
            constructor
            · rw [e1, e2]
              exact h'.1
            · intro k' r' hk'
              rw [e2] at hk'
              have h2 := h'.2 k' r' hk'
              simp only [List.length_drop]
              omega
          rw [show (c :: R₀) ++ T = c :: (R₀ ++ T) from rfl]
          rw [gsub_eq_of_match (by simp) hmT, gsub_eq_of_match (by simp) hm]
          rw [show (c :: (R₀ ++ T)).drop (k₀ + 1) = ((c :: R₀).drop (k₀ + 1)) ++ T from by
            rw [show c :: (R₀ ++ T) = (c :: R₀) ++ T from rfl]
            exact drop_append_of_le hk]
          rw [ih ((c :: R₀).drop (k₀ + 1)) hlen' hshift, List.append_assoc]

theorem gsub_region_split (m : Matcher) (R T : List Char)
    (hyp : ∀ j, j < R.length → m ((R ++ T).drop j) = m (R.drop j) ∧
      ∀ k r, m (R.drop j) = some (k, r) → j + k ≤ R.length) :
    gsub m (R ++ T) = gsub m R ++ gsub m T :=
  gsub_append_split m T R.length R (le_refl _) hyp

theorem classSplit_of_unmatched {u : List Char} (T : List Char)
    (hu : ∀ j, j < u.length → ("class=\x22".data.isPrefixOf (u.drop j) = false ∧
      (u.drop j).isPrefixOf "class=\x22".data = false)) :
    ∀ j, j < u.length →
      quotedAttrMatcher "class=\x22".data [] ((u ++ T).drop j) =
        quotedAttrMatcher "class=\x22".data [] (u.drop j) ∧
      ∀ k r, quotedAttrMatcher "class=\x22".data [] (u.drop j) = some (k, r) →
        j + k ≤ u.length := by
  intro j hj
  have h1 := (hu j hj).1
  have h2 := (hu j hj).2
  constructor
  · rw [drop_append_of_le (Nat.le_of_lt hj)]
    rw [quotedAttrMatcher_none_of_unmatched (isPrefixOf_append_false h1 h2),
      quotedAttrMatcher_none_of_unmatched h1]
  · intro k r hk
    rw [quotedAttrMatcher_none_of_unmatched h1] at hk
    exact absurd hk (by simp)

theorem quotedAttrMatcher_repl_of_some {pat repl l : List Char} {k : Nat} {r : List Char}
    (h : quotedAttrMatcher pat repl l = some (k, r)) : r = repl := by
  rw [quotedAttrMatcher] at h
  split at h
  · dsimp only at h
    split at h
    · injection h with h'
      injection h' with _ hr
      exact hr.symm
    · exact absurd h (by simp)
  · exact absurd h (by simp)

theorem gsubAux_all {p : Char → Bool} {m : Matcher}
    (hm : ∀ l k r, m l = some (k, r) → r.all p = true) :
    ∀ (l : List Char) (s : Nat), l.all p = true → (gsubAux m s l).all p = true := by
  intro l
  induction l with
  | nil =>
    intro s _
    cases s with
    | zero => rfl
    | succ k => rfl
  | cons c cs ih =>
    intro s hall
    simp only [List.all_cons, Bool.and_eq_true] at hall
    cases s with
    | succ k =>
      rw [gsubAux]
      exact ih k hall.2
    | zero =>
      rw [gsubAux]
      cases hm' : m (c :: cs) with
      | none =>
        simp [hall.1, ih 0 hall.2]
      | some kr =>
        obtain ⟨k, r⟩ := kr
        cases k with
        | zero =>
          simp [hall.1, ih 0 hall.2]
        | succ k₀ =>
          have hr := hm _ _ _ hm'
          simp [hr, ih k₀ hall.2]

theorem classStage_keeps_charset {p : Char → Bool} {l : List Char}
    (h : l.all p = true) : (classStage l).all p = true := by
  rw [classStage, gsub]
  exact gsubAux_all
    (fun l' k r hk => by rw [quotedAttrMatcher_repl_of_some hk]; rfl) l 0 h

/-- Decidable containment check: if the matcher fires at offset `j` of
`l`, the match ends at or before position `bound`. -/
def matchContainedB (m : Matcher) (bound : Nat) (l : List Char) (j : Nat) : Bool :=
  ((m (l.drop j)).map (fun kr => decide (j + kr.1 ≤ bound))).getD true

theorem matchContainedB_le {m : Matcher} {bound : Nat} {l : List Char} {j k : Nat}
    {r : List Char} (h : matchContainedB m bound l j = true)
    (hk : m (l.drop j) = some (k, r)) : j + k ≤ bound := by
  rw [matchContainedB, hk] at h
  simpa using h

set_option maxRecDepth 100000 in
set_option maxHeartbeats 4000000 in
/-- C4: for every descriptor whose raw SVG text rewrites, through the
xml-strip, attribute-rename and width/height steps, to an arbitrary
prefix `P` (whitespace, comments, ...) followed by the root opening tag
`<svg` + attrs + `>` and the document body, the generated component
source contains the spread marker on the root tag and the title element
immediately after the root opening tag (whose attributes are the
class-stripped attrs).  The hypotheses only pin down what the claim
itself requires: the shown tag is the first `<svg` occurrence
(`hP`), the root tag is well formed (`hattrs`), the prefix contains no
`class="` text (`hPclass`), and every `class="..."` match inside the
root tag's attributes closes within them (`hattrsC`); class attributes
in `attrs` and in the body are allowed and stripped. -/
theorem transformer_inserts_title_and_rest
    (icon : IconInput) (svg componentName : String) (P attrs body : List Char)
    (hsvg : icon.svgText = some svg) (hne : svg ≠ "")
    (hs3 : heightStage (widthStage (renameAttributes (stripXmlDecl svg.data))) =
      P ++ ("<svg".data ++ (attrs ++ ('>' :: body))))
    (hattrs : attrs.all (fun c => c != '>') = true)
    (hP : ∀ j, j < P.length → "<svg".data.isPrefixOf (P.drop j) = false ∧
      (P.drop j).isPrefixOf "<svg".data = false)
    (hPclass : ∀ j, j < P.length → "class=\x22".data.isPrefixOf (P.drop j) = false ∧
      (P.drop j).isPrefixOf "class=\x22".data = false)
    (hattrsC : ∀ j, j < attrs.length →
      quotedAttrMatcher "class=\x22".data []
          ((attrs ++ ('>' :: ("\n        <title>\x7btitle\x7d</title>".data ++ body))).drop j) =
        quotedAttrMatcher "class=\x22".data [] (attrs.drop j) ∧
      matchContainedB (quotedAttrMatcher "class=\x22".data [])
        attrs.length attrs j = true) :
    ∃ t pre post, icon.processSvgForReact componentName = Except.ok t ∧
      (classStage attrs).all (fun c => c != '>') = true ∧
      t.data = pre ++ ("<svg \x7b...rest\x7d".data ++
        (classStage attrs ++ ((">\n        <title>\x7btitle\x7d</title>").data ++ post))) := by
  have hps : icon.processSvgForReact componentName =
      Except.ok (tsxTemplate icon.name (String.mk (jsTrim (processSvgBody svg.data)))) := by
    rw [IconInput.processSvgForReact, hsvg]
    simp [jsTruthyStr, hne]
  have htitle : titleStage (P ++ ("<svg".data ++ (attrs ++ ('>' :: body)))) =
      P ++ ("<svg".data ++ (attrs ++ ('>' ::
        ("\n        <title>\x7btitle\x7d</title>".data ++ body)))) := by
    rw [titleStage, sub1_skips svgTagTitleMatcher P _ (fun j hj => by
      rw [drop_append_of_le (Nat.le_of_lt hj)]
      exact svgTagTitleMatcher_none_of_unmatched
        (isPrefixOf_append_false (hP j hj).1 (hP j hj).2))]
    rw [sub1_eq_of_match (by simp) (svgTagTitleMatcher_fires attrs body hattrs)]
    rw [show ("<svg".data ++ (attrs ++ ('>' :: body))).drop (4 + attrs.length + 1) = body from by
      rw [show "<svg".data ++ (attrs ++ ('>' :: body)) =
        ("<svg".data ++ attrs ++ ['>']) ++ body by simp]
      exact List.drop_left' (by simp [List.length_append]; omega)]
    rw [show ("<svg".data ++ attrs ++ (">\n        <title>\x7btitle\x7d</title>").data) ++ body =
      "<svg".data ++ (attrs ++ ('>' ::
        ("\n        <title>\x7btitle\x7d</title>".data ++ body))) from by
      rw [show ((">\n        <title>\x7btitle\x7d</title>").data : List Char) =
        '>' :: "\n        <title>\x7btitle\x7d</title>".data from by decide]
      simp]
  have hsvg4 : ∀ j, j < ("<svg".data : List Char).length →
      ("class=\x22".data.isPrefixOf (("<svg".data : List Char).drop j) = false ∧
        (("<svg".data : List Char).drop j).isPrefixOf "class=\x22".data = false) := by decide
  have htb : ∀ j, j < ('>' :: "\n        <title>\x7btitle\x7d</title>".data : List Char).length →
      ("class=\x22".data.isPrefixOf
          (('>' :: "\n        <title>\x7btitle\x7d</title>".data : List Char).drop j) = false ∧
        (('>' :: "\n        <title>\x7btitle\x7d</title>".data : List Char).drop j).isPrefixOf
          "class=\x22".data = false) := by decide
  have hclassEq : classStage (P ++ ("<svg".data ++ (attrs ++ ('>' ::
      ("\n        <title>\x7btitle\x7d</title>".data ++ body))))) =
      P ++ ("<svg".data ++ (classStage attrs ++ ('>' ::
        ("\n        <title>\x7btitle\x7d</title>".data ++ classStage body)))) := by
    show gsub (quotedAttrMatcher "class=\x22".data []) _ = _
    rw [gsub_region_split _ P _ (classSplit_of_unmatched _ hPclass)]
    rw [gsub_quotedAttr_id P (hasSubstr_false_of_unmatched (by decide) P
      (fun j hj => (hPclass j hj).1))]
    rw [gsub_region_split _ "<svg".data _ (classSplit_of_unmatched _ hsvg4)]
    rw [show gsub (quotedAttrMatcher "class=\x22".data []) "<svg".data = "<svg".data from
      by decide]
    rw [gsub_region_split _ attrs _ (fun j hj =>
      ⟨(hattrsC j hj).1, fun k r hk => matchContainedB_le (hattrsC j hj).2 hk⟩)]
    rw [show ('>' :: ("\n        <title>\x7btitle\x7d</title>".data ++ body) : List Char) =
      ('>' :: "\n        <title>\x7btitle\x7d</title>".data) ++ body from by simp]
    rw [gsub_region_split _ ('>' :: "\n        <title>\x7btitle\x7d</title>".data) _
      (classSplit_of_unmatched _ htb)]
    rw [show gsub (quotedAttrMatcher "class=\x22".data [])
        ('>' :: "\n        <title>\x7btitle\x7d</title>".data) =
      '>' :: "\n        <title>\x7btitle\x7d</title>".data from by decide]
    rw [show classStage attrs = gsub (quotedAttrMatcher "class=\x22".data []) attrs from rfl,
      show classStage body = gsub (quotedAttrMatcher "class=\x22".data []) body from rfl]
    simp [List.append_assoc]
  have hrest : restStage (P ++ ("<svg".data ++ (classStage attrs ++ ('>' ::
      ("\n        <title>\x7btitle\x7d</title>".data ++ classStage body))))) =
      P ++ ("<svg \x7b...rest\x7d".data ++ (classStage attrs ++ ('>' ::
        ("\n        <title>\x7btitle\x7d</title>".data ++ classStage body)))) := by
    rw [restStage, sub1_skips _ P _ (fun j hj => by
      rw [drop_append_of_le (Nat.le_of_lt hj)]
      exact litMatcher_none_of_unmatched
        (isPrefixOf_append_false (hP j hj).1 (hP j hj).2))]
    rw [sub1_eq_of_match (by simp)
      (show litMatcher "<svg".data "<svg \x7b...rest\x7d".data
        ("<svg".data ++ (classStage attrs ++ ('>' ::
          ("\n        <title>\x7btitle\x7d</title>".data ++ classStage body)))) =
        some ("<svg".data.length, "<svg \x7b...rest\x7d".data) from by
          rw [litMatcher, if_pos (isPrefixOf_append_self _ _)])]
    rw [List.drop_left]
  have hbody : processSvgBody svg.data =
      P ++ ("<svg \x7b...rest\x7d".data ++ (classStage attrs ++ ('>' ::
        ("\n        <title>\x7btitle\x7d</title>".data ++ classStage body)))) := by
    rw [processSvgBody, hs3, htitle, hclassEq, hrest]
  obtain ⟨P₁, hP₁⟩ : ∃ P₁,
      (P ++ ("<svg \x7b...rest\x7d".data ++ (classStage attrs ++ ('>' ::
        ("\n        <title>\x7btitle\x7d</title>".data ++
          classStage body))))).dropWhile isJsWhitespace =
      P₁ ++ ("<svg \x7b...rest\x7d".data ++ (classStage attrs ++ ('>' ::
        ("\n        <title>\x7btitle\x7d</title>".data ++ classStage body)))) := by
    rw [List.dropWhile_append]
    by_cases hc : (P.dropWhile isJsWhitespace).isEmpty = true
    · rw [if_pos hc]
      refine ⟨[], ?_⟩
      rw [List.nil_append]
      rw [show ("<svg \x7b...rest\x7d".data ++ (classStage attrs ++ ('>' ::
          ("\n        <title>\x7btitle\x7d</title>".data ++ classStage body))) : List Char) =
        '<' :: ("svg \x7b...rest\x7d".data ++ (classStage attrs ++ ('>' ::
          ("\n        <title>\x7btitle\x7d</title>".data ++ classStage body)))) from by
        rw [show ("<svg \x7b...rest\x7d".data : List Char) =
          '<' :: "svg \x7b...rest\x7d".data from by decide]
        simp]
      exact dropWhile_cons_false _ (by decide)
    · rw [if_neg hc]
      exact ⟨P.dropWhile isJsWhitespace, rfl⟩
  have hjt : jsTrim (processSvgBody svg.data) =
      (P₁ ++ ("<svg \x7b...rest\x7d".data ++ (classStage attrs ++ ('>' ::
        "\n        <title>\x7btitle\x7d</title".data)))) ++
        ('>' :: jsTrimRight (classStage body)) := by
    rw [hbody, jsTrim, hP₁]
    rw [show P₁ ++ ("<svg \x7b...rest\x7d".data ++ (classStage attrs ++ ('>' ::
        ("\n        <title>\x7btitle\x7d</title>".data ++ classStage body)))) =
      (P₁ ++ ("<svg \x7b...rest\x7d".data ++ (classStage attrs ++ ('>' ::
        "\n        <title>\x7btitle\x7d</title".data)))) ++ ('>' :: classStage body) from by
        rw [show ("\n        <title>\x7btitle\x7d</title>".data : List Char) =
          "\n        <title>\x7btitle\x7d</title".data ++ ['>'] from by decide]
        simp]
    rw [jsTrimRight_append_cons (by decide)]
  refine ⟨_, (tsxHeader ++ icon.name ++ tsxMiddle).data ++ P₁,
    jsTrimRight (classStage body) ++ tsxFooter.data, hps,
    classStage_keeps_charset hattrs, ?_⟩
  show (tsxTemplate icon.name (String.mk (jsTrim (processSvgBody svg.data)))).data = _
  rw [tsxTemplate]
  simp only [String.data_append]
  rw [hjt]
  simp [List.append_assoc]

/-- A whitespace-prefixed, class-bearing downloaded descriptor for the
C4 witness. -/
def classyIcon : IconInput :=
  { output := ".", name := "wit", filename := "wit", repository := heroiconsRepo,
    svgText := some "\n<svg class=\x22a\x22><path d=\x22M0 0\x22/></svg>" }

set_option maxRecDepth 100000 in
set_option maxHeartbeats 4000000 in
/-- Witness for C4 at a concrete whitespace-prefixed SVG document whose
root tag carries a class attribute. -/
theorem transformer_inserts_title_and_rest_witness :
    ∃ t pre post, classyIcon.processSvgForReact "X" = Except.ok t ∧
      (classStage " height=\x7bheight\x7d width=\x7bwidth\x7d class=\x22a\x22".data).all
        (fun c => c != '>') = true ∧
      t.data = pre ++ ("<svg \x7b...rest\x7d".data ++
        (classStage " height=\x7bheight\x7d width=\x7bwidth\x7d class=\x22a\x22".data ++
          ((">\n        <title>\x7btitle\x7d</title>").data ++ post))) :=
  transformer_inserts_title_and_rest classyIcon
    "\n<svg class=\x22a\x22><path d=\x22M0 0\x22/></svg>" "X"
    "\n".data " height=\x7bheight\x7d width=\x7bwidth\x7d class=\x22a\x22".data
    "<path d=\x22M0 0\x22/></svg>".data
    rfl (by decide) (by decide) (by decide) (by decide) (by decide) (by decide)
